import Mathlib

-- Shallow embedding of the elespe typing-practice server (src/main.go).
-- The per-connection session engine of handleWebSocket is modelled as a pure
-- step function on an explicit session state, the PostgreSQL tables as lists
-- inside a DB record, and wall-clock instants as rationals (minutes).
-- Transport concerns (websocket upgrade, JSON codecs), the users table and
-- process startup are outside every claim and are not modelled.

namespace Elespe

-- ---- Data model (src/main.go lines 22-61) ----

structure Verse where
  book_name : String
  book : Int
  chapter : Int
  verse : Int
  text : String
deriving Repr, DecidableEq

structure BookProgress where
  currentVerse : Nat
  totalVerses : Nat
  correctEntries : Nat
  mistakes : Nat
deriving Repr, DecidableEq

structure RuntimeStats where
  startTime : ℚ
  charsTyped : Nat
  correctChars : Nat
  wpm : Int
  started : Bool
deriving Repr, DecidableEq

structure TypingSession where
  id : Nat
  uid : String
  bookName : String
  charsTyped : Nat
  correctChars : Nat
  wpm : Int
  ended : Bool
deriving Repr, DecidableEq

-- The relational store: book_progress, favorite_verses and typing_sessions
-- tables (schema in initDB, src/main.go lines 71-127).  SERIAL ids are the
-- sessionSeq counter.
structure DB where
  bookProgressTable : List (String × String × BookProgress)
  favoriteVersesTable : List (String × Verse)
  typingSessionsTable : List TypingSession
  sessionSeq : Nat
deriving Repr, DecidableEq

def dbInit : DB :=
  { bookProgressTable := [], favoriteVersesTable := [], typingSessionsTable := [], sessionSeq := 1 }

-- ---- utils (src/main.go lines 299-318) ----

-- Go unicode.IsControl: true exactly for the Latin-1 C0/C1 control ranges
-- U+0000..U+001F and U+007F..U+009F (the properties table only covers Latin-1).
def isControlGo (c : Char) : Bool :=
  decide (c.toNat ≤ 0x1F) || (decide (0x7F ≤ c.toNat) && decide (c.toNat ≤ 0x9F))

-- The rune test inside cleanString: control characters and the pilcrow
-- U+00B6, paragraph separator U+2029 and line separator U+2028 are dropped.
def keepRune (c : Char) : Bool :=
  !(isControlGo c || decide (c.toNat = 0xB6) || decide (c.toNat = 0x2029) || decide (c.toNat = 0x2028))

-- cleanString (src/main.go lines 301-311): strings.Map returning -1 drops the
-- rune, every other rune is kept unchanged, i.e. a filter.
def cleanString (s : String) : String :=
  String.mk (s.data.filter keepRune)

-- Go unicode.IsSpace: White_Space code points.
def isSpaceGo (c : Char) : Bool :=
  decide (9 ≤ c.toNat ∧ c.toNat ≤ 13) || decide (c.toNat = 32) || decide (c.toNat = 0x85) ||
  decide (c.toNat = 0xA0) || decide (c.toNat = 0x1680) ||
  decide (0x2000 ≤ c.toNat ∧ c.toNat ≤ 0x200A) || decide (c.toNat = 0x2028) ||
  decide (c.toNat = 0x2029) || decide (c.toNat = 0x202F) || decide (c.toNat = 0x205F) ||
  decide (c.toNat = 0x3000)

-- Go strings.TrimSpace: drop leading and trailing white space.
def trimSpaceGo (s : String) : String :=
  String.mk (((s.data.dropWhile isSpaceGo).reverse.dropWhile isSpaceGo).reverse)

-- Go strings.ToLower restricted to ASCII letters; the engine only compares the
-- result against the all-ASCII literal "quit".
def toLowerGo (s : String) : String :=
  String.mk (s.data.map (fun c => if 65 ≤ c.toNat ∧ c.toNat ≤ 90 then Char.ofNat (c.toNat + 32) else c))

-- Go len(string) counts UTF-8 bytes.
def charUtf8Size (c : Char) : Nat :=
  if c.toNat < 0x80 then 1 else if c.toNat < 0x800 then 2 else if c.toNat < 0x10000 then 3 else 4

def goLen (s : String) : Nat :=
  s.data.foldl (fun n c => n + charUtf8Size c) 0

-- fmt.Sscanf(content, "%d", &verseNum): skip leading white space, optional
-- sign, then decimal digits; if no digit is read verseNum keeps its zero value.
def sscanfInt (s : String) : Int :=
  let cs := s.data.dropWhile isSpaceGo
  let sign : Int := match cs with
    | c :: _ => if c.toNat = 45 then -1 else 1
    | [] => 1
  let cs2 := match cs with
    | c :: rest => if c.toNat = 45 ∨ c.toNat = 43 then rest else cs
    | [] => cs
  let ds := cs2.takeWhile (fun c => decide (48 ≤ c.toNat ∧ c.toNat ≤ 57))
  if ds.isEmpty then 0
  else sign * Int.ofNat (ds.foldl (fun acc c => acc * 10 + (c.toNat - 48)) 0)

-- Go int(float64(correctChars) / 5 / elapsed): for the nonnegative values that
-- arise, float truncation toward zero coincides with the rational floor.
def wpmCalc (correctChars : Nat) (elapsed : ℚ) : Int :=
  Rat.floor ((correctChars : ℚ) / 5 / elapsed)

-- ---- Database functions (src/main.go lines 138-297) ----

def lookupProgress : List (String × String × BookProgress) → String → String → Option BookProgress
  | [], _, _ => none
  | (u, b, bp) :: rest, uid, book =>
      if u = uid ∧ b = book then some bp else lookupProgress rest uid book

-- getBookProgress (lines 138-167): return the stored row, or insert a fresh
-- row with current_verse = 0 and the given total and return it.
def getBookProgress (db : DB) (uid book : String) (totalVerses : Nat) : BookProgress × DB :=
  match lookupProgress db.bookProgressTable uid book with
  | some bp => (bp, db)
  | none =>
      let bp : BookProgress := { currentVerse := 0, totalVerses := totalVerses, correctEntries := 0, mistakes := 0 }
      (bp, { db with bookProgressTable := db.bookProgressTable ++ [(uid, book, bp)] })

-- updateBookProgress (lines 169-180): UPDATE of the (uid, book) row.
def updateBookProgress (db : DB) (uid book : String) (bp : BookProgress) : DB :=
  { db with bookProgressTable :=
      db.bookProgressTable.map (fun e => if e.1 = uid ∧ e.2.1 = book then (uid, book, bp) else e) }

-- createTypingSession (lines 182-191).
def createTypingSession (db : DB) (uid book : String) : Nat × DB :=
  (db.sessionSeq,
    { db with sessionSeq := db.sessionSeq + 1,
              typingSessionsTable := db.typingSessionsTable ++
                [{ id := db.sessionSeq, uid := uid, bookName := book,
                   charsTyped := 0, correctChars := 0, wpm := 0, ended := false }] })

-- updateTypingSession (lines 193-204).
def updateTypingSession (db : DB) (sessionID : Nat) (rs : RuntimeStats) : DB :=
  { db with typingSessionsTable :=
      db.typingSessionsTable.map (fun s =>
        if s.id = sessionID then
          { s with charsTyped := rs.charsTyped, correctChars := rs.correctChars, wpm := rs.wpm, ended := true }
        else s) }

-- getAllBookProgress (lines 206-230): per row of the user, rows with
-- total_verses > 0 contribute current * 100 / total; rows with total 0 are
-- skipped by the `if total > 0` guard.
def progressRows : List (String × String × BookProgress) → String → List (String × Nat)
  | [], _ => []
  | (u, b, bp) :: rest, uid =>
      if u = uid then
        if 0 < bp.totalVerses then (b, bp.currentVerse * 100 / bp.totalVerses) :: progressRows rest uid
        else progressRows rest uid
      else progressRows rest uid

def getAllBookProgress (db : DB) (uid : String) : List (String × Nat) :=
  progressRows db.bookProgressTable uid

-- favorite_verses rows are matched on (uid, book_name, chapter, verse).
def favMatches (uid : String) (v : Verse) (e : String × Verse) : Bool :=
  decide (e.1 = uid ∧ e.2.book_name = v.book_name ∧ e.2.chapter = v.chapter ∧ e.2.verse = v.verse)

-- toggleFavorite (lines 232-261).
def toggleFavorite (db : DB) (uid : String) (v : Verse) : Bool × DB :=
  if db.favoriteVersesTable.any (favMatches uid v) then
    (false, { db with favoriteVersesTable := db.favoriteVersesTable.filter (fun e => !favMatches uid v e) })
  else
    (true, { db with favoriteVersesTable := db.favoriteVersesTable ++ [(uid, v)] })

-- getFavorites (lines 263-285): ORDER BY created_at DESC, i.e. reverse
-- insertion order.
def getFavorites (db : DB) (uid : String) : List Verse :=
  ((db.favoriteVersesTable.filter (fun e => decide (e.1 = uid))).reverse).map (fun e => e.2)

-- isFavorite (lines 287-297).
def isFavorite (db : DB) (uid : String) (v : Verse) : Bool :=
  db.favoriteVersesTable.any (favMatches uid v)

-- ---- passage index (src/main.go lines 63-67, 313-318) ----

-- versesByBook is a map collection name -> ordered verse list; modelled as an
-- association list looked up by name.
def lookupBook : List (String × List Verse) → String → Option (List Verse)
  | [], _ => none
  | (n, vs) :: rest, b => if n = b then some vs else lookupBook rest b

def defaultVerse : Verse :=
  { book_name := "", book := 0, chapter := 0, verse := 0, text := "" }

-- ---- websocket session engine (src/main.go lines 324-597) ----

-- Inbound messages, discriminated by msg.Type; unrecognized type tags fall
-- through the switch and do nothing.
inductive InMsg where
  | getFavorites : InMsg
  | toggleFavorite : InMsg
  | jumpToVerse (content : String) : InMsg
  | selectBook (content : String) : InMsg
  | content (text : String) : InMsg
  | other (tag : String) (content : String) : InMsg
deriving Repr, DecidableEq

-- Outbound messages as written by conn.WriteJSON.
inductive OutMsg where
  | favoritesMsg (favs : List Verse) : OutMsg
  | favoriteToggled (isFav : Bool) : OutMsg
  | error (content : String) : OutMsg
  | verse (content : String) (v : Verse) (number : Nat) (total : Nat)
      (stats : Option (BookProgress × RuntimeStats)) (isFavorite : Bool) : OutMsg
  | complete (content : String) (stats : Option (BookProgress × RuntimeStats)) : OutMsg
  | correct : OutMsg
  | wrong : OutMsg
  | statsMsg (stats : BookProgress × RuntimeStats) : OutMsg
  | response (content : String) : OutMsg
deriving Repr, DecidableEq

-- Per-connection local variables of handleWebSocket (lines 346-379).
-- bookVerses mirrors the OUTER `var bookVerses []Verse` of line 379: the
-- `bookVerses, exists := versesByBook[selectedBook]` inside the select_book
-- case declares a new shadowed local, so this field is never assigned.
structure SessionState where
  uid : String
  selectedBook : String
  bookProgress : Option BookProgress
  bookVerses : List Verse
  currentVerseIndex : Nat
  runtimeStats : RuntimeStats
  sessionID : Nat
  terminated : Bool
deriving Repr, DecidableEq

def initState (uid : String) (t0 : ℚ) : SessionState :=
  { uid := uid, selectedBook := "", bookProgress := none, bookVerses := [],
    currentVerseIndex := 0,
    runtimeStats := { startTime := t0, charsTyped := 0, correctChars := 0, wpm := 0, started := false },
    sessionID := 0, terminated := false }

-- case "toggle_favorite" (lines 398-409).
def handleToggleFavorite (db : DB) (st : SessionState) : DB × SessionState × List OutMsg :=
  if st.selectedBook = "" ∨ st.bookVerses.length ≤ st.currentVerseIndex then (db, st, [])
  else
    let v := st.bookVerses.getD st.currentVerseIndex defaultVerse
    let r := toggleFavorite db st.uid v
    (r.2, st, [OutMsg.favoriteToggled r.1])

-- case "jump_to_verse" (lines 411-444).
def handleJump (db : DB) (st : SessionState) (content : String) : DB × SessionState × List OutMsg :=
  match st.bookProgress with
  | none => (db, st, [])
  | some bp =>
      if st.selectedBook = "" then (db, st, [])
      else
        let verseNum := sscanfInt content
        if verseNum < 1 ∨ (st.bookVerses.length : Int) < verseNum then
          (db, st, [OutMsg.error "Invalid verse number"])
        else
          let i := (verseNum - 1).toNat
          let v := st.bookVerses.getD i defaultVerse
          let isFav := isFavorite db st.uid v
          (db, { st with currentVerseIndex := i },
            [OutMsg.verse v.text v (i + 1) st.bookVerses.length (some (bp, st.runtimeStats)) isFav])

-- case "select_book" (lines 446-503).  selectedBook is assigned before the
-- index lookup; on an unknown name the error is emitted with selectedBook
-- already overwritten.  The verse list bound here is the shadowed LOCAL
-- bvsLocal; st.bookVerses is left untouched, as in the source.
def handleSelectBook (idx : List (String × List Verse)) (now : ℚ) (db : DB) (st : SessionState)
    (name : String) : DB × SessionState × List OutMsg :=
  let st1 := { st with selectedBook := name }
  match lookupBook idx name with
  | none => (db, st1, [OutMsg.error "Book not found"])
  | some bvsLocal =>
      let r := getBookProgress db st1.uid name bvsLocal.length
      let bp := r.1
      let db1 := r.2
      let r2 := createTypingSession db1 st1.uid name
      let sid := r2.1
      let db2 := r2.2
      let rs : RuntimeStats := { startTime := now, charsTyped := 0, correctChars := 0, wpm := 0, started := false }
      let st2 := { st1 with bookProgress := some bp, sessionID := sid, runtimeStats := rs, currentVerseIndex := bp.currentVerse }
      if bp.currentVerse < bvsLocal.length then
        let v := bvsLocal.getD bp.currentVerse defaultVerse
        let isFav := isFavorite db2 st2.uid v
        (db2, st2, [OutMsg.verse v.text v (bp.currentVerse + 1) bvsLocal.length (some (bp, rs)) isFav])
      else
        (db2, st2,
          [OutMsg.complete ("You\u0027ve completed " ++ name ++ "! Select a verse to practice or choose another book.")
            (some (bp, rs))])

-- case "content" (lines 505-594).  The guard indexes the outer bookVerses.
def handleContent (now : ℚ) (db : DB) (st : SessionState) (text : String) :
    DB × SessionState × List OutMsg :=
  match st.bookProgress with
  | none => (db, st, [])
  | some bp0 =>
      if st.selectedBook = "" then (db, st, [])
      else if st.bookVerses.length ≤ st.currentVerseIndex then (db, st, [])
      else
        let v := st.bookVerses.getD st.currentVerseIndex defaultVerse
        let user := cleanString (trimSpaceGo text)
        let corr := cleanString (trimSpaceGo v.text)
        let rs0 := st.runtimeStats
        let rs1 := if ¬ rs0.started ∧ 0 < goLen user
                   then { rs0 with started := true, startTime := now } else rs0
        if toLowerGo user = "quit" then
          (db, { st with runtimeStats := rs1, terminated := true }, [OutMsg.response "Goodbye"])
        else if user = corr then
          let rs2 := { rs1 with correctChars := rs1.correctChars + goLen corr, charsTyped := rs1.charsTyped + goLen user }
          let bp1 := { bp0 with currentVerse := bp0.currentVerse + 1, correctEntries := bp0.correctEntries + 1 }
          let elapsed := now - rs2.startTime
          let rs3 := if 0 < elapsed then { rs2 with wpm := wpmCalc rs2.correctChars elapsed } else rs2
          let db1 := updateBookProgress db st.uid st.selectedBook bp1
          let db2 := if 0 < st.sessionID then updateTypingSession db1 st.sessionID rs3 else db1
          let stp := (bp1, rs3)
          let tail := if bp1.currentVerse < st.bookVerses.length then
              let nextV := st.bookVerses.getD bp1.currentVerse defaultVerse
              [OutMsg.verse nextV.text nextV (bp1.currentVerse + 1) st.bookVerses.length (some stp) false]
            else [OutMsg.complete "All done!" (some stp)]
          (db2, { st with bookProgress := some bp1, runtimeStats := rs3 },
            [OutMsg.correct, OutMsg.statsMsg stp] ++ tail)
        else
          let bp1 := { bp0 with mistakes := bp0.mistakes + 1 }
          let rs2 := { rs1 with charsTyped := rs1.charsTyped + goLen user }
          let db1 := updateBookProgress db st.uid st.selectedBook bp1
          let db2 := if 0 < st.sessionID then updateTypingSession db1 st.sessionID rs2 else db1
          (db2, { st with bookProgress := some bp1, runtimeStats := rs2 },
            [OutMsg.wrong, OutMsg.statsMsg (bp1, rs2)])

-- The read loop dispatch (switch msg.Type, lines 388-595).
def step (idx : List (String × List Verse)) (now : ℚ) (db : DB) (st : SessionState) (m : InMsg) :
    DB × SessionState × List OutMsg :=
  match m with
  | InMsg.getFavorites => (db, st, [OutMsg.favoritesMsg (getFavorites db st.uid)])
  | InMsg.toggleFavorite => handleToggleFavorite db st
  | InMsg.jumpToVerse c => handleJump db st c
  | InMsg.selectBook name => handleSelectBook idx now db st name
  | InMsg.content text => handleContent now db st text
  | InMsg.other _ _ => (db, st, [])

-- Reachable (store, session) pairs: a fresh connection against the empty
-- store, a later reconnect against the store left by earlier activity, and
-- the processing of one inbound message by a live session.
inductive Reach (idx : List (String × List Verse)) : DB → SessionState → Prop
  | init (uid : String) (t0 : ℚ) : Reach idx dbInit (initState uid t0)
  | reconnect {db : DB} {st : SessionState} (uid : String) (t0 : ℚ) :
      Reach idx db st → Reach idx db (initState uid t0)
  | next {db : DB} {st : SessionState} (now : ℚ) (m : InMsg) :
      Reach idx db st → st.terminated = false →
      Reach idx (step idx now db st m).1 (step idx now db st m).2.1

-- ---- concrete demonstration values ----

def gv1 : Verse :=
  { book_name := "Genesis", book := 1, chapter := 1, verse := 1, text := "In the beginning" }

def gv2 : Verse :=
  { book_name := "Genesis", book := 1, chapter := 1, verse := 2, text := "God created" }

def demoIdx : List (String × List Verse) := [("Genesis", [gv1, gv2])]

def demoRun1 : DB × SessionState × List OutMsg :=
  step demoIdx 0 dbInit (initState "u" 0) (InMsg.selectBook "Genesis")

def demoDb1 : DB := demoRun1.1

def demoSt1 : SessionState := demoRun1.2.1

def dbC8 : DB :=
  { bookProgressTable := [("u", "X", { currentVerse := 0, totalVerses := 0, correctEntries := 0, mistakes := 0 })],
    favoriteVersesTable := [], typingSessionsTable := [], sessionSeq := 1 }

def dbC9 : DB :=
  { bookProgressTable := [("u", "Genesis", { currentVerse := 1, totalVerses := 2, correctEntries := 0, mistakes := 0 })],
    favoriteVersesTable := [], typingSessionsTable := [], sessionSeq := 1 }

end Elespe
namespace Elespe

-- ---- helper lemmas ----

theorem filter_idem (p : Char → Bool) (l : List Char) :
    (l.filter p).filter p = l.filter p := by
  induction l with
  | nil => rfl
  | cons c cs ih =>
      cases h : p c with
      | false => simp [List.filter_cons, h, ih]
      | true => simp [List.filter_cons, h, ih]

theorem handleToggleFavorite_nil (db : DB) (st : SessionState) (h : st.bookVerses = []) :
    handleToggleFavorite db st = (db, st, []) := by
  have hc : st.bookVerses.length ≤ st.currentVerseIndex := by rw [h]; exact Nat.zero_le _
  dsimp only [handleToggleFavorite]
  rw [if_pos (Or.inr hc)]

theorem handleContent_nil (now : ℚ) (db : DB) (st : SessionState) (text : String)
    (h : st.bookVerses = []) : handleContent now db st text = (db, st, []) := by
  have hc : st.bookVerses.length ≤ st.currentVerseIndex := by rw [h]; exact Nat.zero_le _
  dsimp only [handleContent]
  cases st.bookProgress with
  | none => rfl
  | some bp0 =>
      dsimp only
      by_cases hs : st.selectedBook = ""
      · rw [if_pos hs]
      · rw [if_neg hs, if_pos hc]

theorem handleJump_frame (db : DB) (st : SessionState) (c : String) :
    (handleJump db st c).1 = db ∧
    (handleJump db st c).2.1.bookVerses = st.bookVerses ∧
    (handleJump db st c).2.1.runtimeStats = st.runtimeStats := by
  dsimp only [handleJump]
  cases st.bookProgress with
  | none => exact ⟨rfl, rfl, rfl⟩
  | some bp =>
      dsimp only
      by_cases hs : st.selectedBook = ""
      · rw [if_pos hs]; exact ⟨rfl, rfl, rfl⟩
      · rw [if_neg hs]
        by_cases hr : sscanfInt c < 1 ∨ (st.bookVerses.length : Int) < sscanfInt c
        · rw [if_pos hr]; exact ⟨rfl, rfl, rfl⟩
        · rw [if_neg hr]; exact ⟨rfl, rfl, rfl⟩

theorem handleSelectBook_bookVerses (idx : List (String × List Verse)) (now : ℚ) (db : DB)
    (st : SessionState) (name : String) :
    (handleSelectBook idx now db st name).2.1.bookVerses = st.bookVerses := by
  dsimp only [handleSelectBook]
  cases lookupBook idx name with
  | none => rfl
  | some bvs =>
      dsimp only
      by_cases hlt : (getBookProgress db st.uid name bvs.length).1.currentVerse < bvs.length
      · rw [if_pos hlt]
      · rw [if_neg hlt]

theorem handleSelectBook_wpm (idx : List (String × List Verse)) (now : ℚ) (db : DB)
    (st : SessionState) (name : String) (h : st.runtimeStats.wpm = 0) :
    (handleSelectBook idx now db st name).2.1.runtimeStats.wpm = 0 := by
  dsimp only [handleSelectBook]
  cases lookupBook idx name with
  | none => exact h
  | some bvs =>
      dsimp only
      by_cases hlt : (getBookProgress db st.uid name bvs.length).1.currentVerse < bvs.length
      · rw [if_pos hlt]
      · rw [if_neg hlt]

def GoodDB (db : DB) : Prop :=
  ∀ e ∈ db.bookProgressTable, e.2.2.currentVerse = 0

theorem getBookProgress_table (db : DB) (uid book : String) (t : Nat) :
    (getBookProgress db uid book t).2.bookProgressTable = db.bookProgressTable ∨
    (getBookProgress db uid book t).2.bookProgressTable =
      db.bookProgressTable ++
        [(uid, book, { currentVerse := 0, totalVerses := t, correctEntries := 0, mistakes := 0 })] := by
  dsimp only [getBookProgress]
  cases lookupProgress db.bookProgressTable uid book with
  | some bp => exact Or.inl rfl
  | none => exact Or.inr rfl

theorem getBookProgress_GoodDB (db : DB) (uid book : String) (t : Nat) (h : GoodDB db) :
    GoodDB (getBookProgress db uid book t).2 := by
  intro e he
  rcases getBookProgress_table db uid book t with heq | heq
  · rw [heq] at he; exact h e he
  · rw [heq] at he
    rcases List.mem_append.mp he with h1 | h1
    · exact h e h1
    · rw [List.mem_singleton.mp h1]

theorem createTypingSession_GoodDB (db : DB) (u b : String) (h : GoodDB db) :
    GoodDB (createTypingSession db u b).2 := h

theorem handleSelectBook_GoodDB (idx : List (String × List Verse)) (now : ℚ) (db : DB)
    (st : SessionState) (name : String) (h : GoodDB db) :
    GoodDB (handleSelectBook idx now db st name).1 := by
  dsimp only [handleSelectBook]
  cases lookupBook idx name with
  | none => exact h
  | some bvs =>
      dsimp only
      by_cases hlt : (getBookProgress db st.uid name bvs.length).1.currentVerse < bvs.length
      · rw [if_pos hlt]
        exact createTypingSession_GoodDB _ _ _ (getBookProgress_GoodDB _ _ _ _ h)
      · rw [if_neg hlt]
        exact createTypingSession_GoodDB _ _ _ (getBookProgress_GoodDB _ _ _ _ h)

theorem step_preserves (idx : List (String × List Verse)) (now : ℚ) (db : DB)
    (st : SessionState) (m : InMsg)
    (hbv : st.bookVerses = []) (hwpm : st.runtimeStats.wpm = 0) (hdb : GoodDB db) :
    GoodDB (step idx now db st m).1 ∧ (step idx now db st m).2.1.bookVerses = [] ∧
    (step idx now db st m).2.1.runtimeStats.wpm = 0 := by
  cases m with
  | getFavorites => exact ⟨hdb, hbv, hwpm⟩
  | toggleFavorite =>
      simp only [step, handleToggleFavorite_nil db st hbv]
      exact ⟨hdb, hbv, hwpm⟩
  | jumpToVerse c =>
      have hf := handleJump_frame db st c
      simp only [step]
      refine ⟨?_, ?_, ?_⟩
      · rw [hf.1]; exact hdb
      · rw [hf.2.1]; exact hbv
      · rw [hf.2.2]; exact hwpm
  | selectBook name =>
      simp only [step]
      exact ⟨handleSelectBook_GoodDB idx now db st name hdb,
             (handleSelectBook_bookVerses idx now db st name).trans hbv,
             handleSelectBook_wpm idx now db st name hwpm⟩
  | content text =>
      simp only [step, handleContent_nil now db st text hbv]
      exact ⟨hdb, hbv, hwpm⟩
  | other tag c => exact ⟨hdb, hbv, hwpm⟩

theorem reach_good {idx : List (String × List Verse)} {db : DB} {st : SessionState}
    (h : Reach idx db st) :
    GoodDB db ∧ st.bookVerses = [] ∧ st.runtimeStats.wpm = 0 := by
  induction h with
  | init uid t0 => exact ⟨fun e he => absurd he (List.not_mem_nil e), rfl, rfl⟩
  | reconnect uid t0 hr ih => exact ⟨ih.1, rfl, rfl⟩
  | next now m hr hterm ih => exact step_preserves _ now _ _ m ih.2.1 ih.2.2 ih.1

theorem lookupProgress_zero {l : List (String × String × BookProgress)} {uid book : String}
    {bp : BookProgress} (hg : ∀ e ∈ l, e.2.2.currentVerse = 0)
    (h : lookupProgress l uid book = some bp) : bp.currentVerse = 0 := by
  induction l with
  | nil => exact absurd h (by simp [lookupProgress])
  | cons e rest ih =>
      rcases e with ⟨u, b, bp0⟩
      dsimp only [lookupProgress] at h
      by_cases hc : u = uid ∧ b = book
      · rw [if_pos hc] at h
        rw [← Option.some.inj h]
        exact hg (u, b, bp0) (List.mem_cons_self _ _)
      · rw [if_neg hc] at h
        exact ih (fun e he => hg e (List.mem_cons_of_mem _ he)) h

theorem getBookProgress_found {db : DB} {uid book : String} {bp : BookProgress} {t : Nat}
    (h : lookupProgress db.bookProgressTable uid book = some bp) :
    getBookProgress db uid book t = (bp, db) := by
  unfold getBookProgress
  rw [h]

theorem handleSelectBook_complete_iff (idx : List (String × List Verse)) (now : ℚ) (db : DB)
    (st : SessionState) (name : String) (bvs : List Verse) (bp : BookProgress)
    (hb : lookupBook idx name = some bvs)
    (hp : lookupProgress db.bookProgressTable st.uid name = some bp) :
    (∃ c s, OutMsg.complete c s ∈ (handleSelectBook idx now db st name).2.2) ↔
      bvs.length ≤ bp.currentVerse := by
  dsimp only [handleSelectBook]
  rw [hb]
  dsimp only
  rw [getBookProgress_found hp]
  dsimp only
  by_cases hlt : bp.currentVerse < bvs.length
  · rw [if_pos hlt]
    constructor
    · rintro ⟨c, s, hm⟩
      exact OutMsg.noConfusion (List.mem_singleton.mp hm)
    · intro hle; exact absurd hlt (Nat.not_lt.mpr hle)
  · rw [if_neg hlt]
    constructor
    · intro _; exact Nat.not_lt.mp hlt
    · intro _; exact ⟨_, _, List.mem_singleton.mpr rfl⟩

-- ---- claim theorems ----

/-- C10: normalization is idempotent: cleanString (cleanString x) = cleanString x
for every string x, where cleanString removes control characters and the
pilcrow, paragraph-separator and line-separator code points. -/
theorem cleanString_idempotent (s : String) :
    cleanString (cleanString s) = cleanString s := by
  unfold cleanString
  exact congrArg String.mk (filter_idem keepRune s.data)

/-- C2: in every reachable session state the outer bookVerses slice consulted by
the content, jump_to_verse and toggle_favorite handlers is empty (the
select_book case assigns a shadowed local instead), and consequently a content
event emits nothing and changes neither the session state nor the store. -/
theorem content_events_never_fire (idx : List (String × List Verse)) (db : DB)
    (st : SessionState) (h : Reach idx db st) :
    st.bookVerses = [] ∧
    ∀ (now : ℚ) (text : String), step idx now db st (InMsg.content text) = (db, st, []) := by
  have hbv := (reach_good h).2.1
  refine ⟨hbv, fun now text => ?_⟩
  simp only [step]
  exact handleContent_nil now db st text hbv

/-- C2 witness: the invariant and the content no-op, instantiated at a concrete
reachable state. -/
theorem content_events_never_fire_witness :
    (initState "u" 0).bookVerses = [] ∧
    step demoIdx 7 dbInit (initState "u" 0) (InMsg.content "abc") = (dbInit, initState "u" 0, []) := by
  have h := content_events_never_fire demoIdx dbInit (initState "u" 0) (Reach.init "u" 0)
  exact ⟨h.1, h.2 7 "abc"⟩

/-- C1: code bug witness. With the Genesis collection selected, current index
0 < total 2, and a submission whose normalized trimmed text equals the
normalized trimmed target, the engine emits NO event at all and leaves the
Progress Record untouched (the claim demands a correct event and increments);
the shadowed-slice guard short-circuits the content handler. -/
theorem matching_submission_produces_no_events :
    demoSt1.selectedBook = "Genesis" ∧
    demoSt1.bookProgress =
      some { currentVerse := 0, totalVerses := 2, correctEntries := 0, mistakes := 0 } ∧
    cleanString (trimSpaceGo "In the beginning") = cleanString (trimSpaceGo gv1.text) ∧
    step demoIdx 1 demoDb1 demoSt1 (InMsg.content "In the beginning") = (demoDb1, demoSt1, []) := by
  refine ⟨rfl, rfl, rfl, rfl⟩

/-- C5: code bug witness. With Genesis (2 passages) selected, the in-range jump
to 1-based position 1 is rejected with an error event because the bounds check
runs against the shadowed empty slice; the claim demands the passage be
emitted. -/
theorem jump_in_range_rejected :
    sscanfInt "1" = 1 ∧
    lookupBook demoIdx "Genesis" = some [gv1, gv2] ∧
    step demoIdx 1 demoDb1 demoSt1 (InMsg.jumpToVerse "1") =
      (demoDb1, demoSt1, [OutMsg.error "Invalid verse number"]) := by
  refine ⟨rfl, rfl, rfl⟩

/-- C6: code bug witness. A "quit" submission in a session with a selected
collection emits nothing and does not terminate the connection (the claim
demands a farewell event and termination); the content handler is dead. The
store and state are fully retained. -/
theorem quit_submission_ignored :
    toLowerGo (cleanString (trimSpaceGo "quit")) = "quit" ∧
    step demoIdx 1 demoDb1 demoSt1 (InMsg.content "quit") = (demoDb1, demoSt1, []) ∧
    (step demoIdx 1 demoDb1 demoSt1 (InMsg.content "quit")).2.1.terminated = false := by
  refine ⟨rfl, rfl, rfl⟩

/-- C3: every Progress Record in a reachable store satisfies
0 ≤ current_index ≤ total, and re-selecting a collection whose stored total
matches the passage count emits a completion event exactly when
current_index = total. -/
theorem progress_invariant_and_completion (idx : List (String × List Verse)) (db : DB)
    (st : SessionState) (h : Reach idx db st) :
    (∀ e ∈ db.bookProgressTable, 0 ≤ e.2.2.currentVerse ∧ e.2.2.currentVerse ≤ e.2.2.totalVerses) ∧
    (∀ (now : ℚ) (b : String) (bvs : List Verse) (bp : BookProgress),
      lookupBook idx b = some bvs →
      lookupProgress db.bookProgressTable st.uid b = some bp →
      bp.totalVerses = bvs.length →
      ((∃ c s, OutMsg.complete c s ∈ (step idx now db st (InMsg.selectBook b)).2.2) ↔
        bp.currentVerse = bp.totalVerses)) := by
  have hg := (reach_good h).1
  constructor
  · intro e he
    have h0 := hg e he
    omega
  · intro now b bvs bp hb hp ht
    have hz := lookupProgress_zero hg hp
    simp only [step]
    rw [handleSelectBook_complete_iff idx now db st b bvs bp hb hp]
    omega

/-- C3 witness: at a concrete reachable store holding the Genesis record
(current 0, total 2), re-selecting Genesis emits no completion event. -/
theorem progress_invariant_witness :
    ¬ ∃ c s, OutMsg.complete c s ∈
      (step demoIdx 3 demoDb1 demoSt1 (InMsg.selectBook "Genesis")).2.2 := by
  have hr : Reach demoIdx demoDb1 demoSt1 :=
    Reach.next 0 (InMsg.selectBook "Genesis") (Reach.init "u" 0) rfl
  have h := progress_invariant_and_completion demoIdx demoDb1 demoSt1 hr
  intro hc
  have h2 := (h.2 3 "Genesis" [gv1, gv2]
    { currentVerse := 0, totalVerses := 2, correctEntries := 0, mistakes := 0 }
    rfl rfl rfl).mp hc
  exact absurd h2 (by decide)

/-- C4 counterexample: selecting the unknown collection "Atlantis" emits the
error event but the session state is NOT unchanged: selectedBook is overwritten
with the unknown name before the lookup. -/
theorem select_unknown_mutates_selection :
    (step demoIdx 2 dbInit (initState "u" 0) (InMsg.selectBook "Atlantis")).2.2 =
      [OutMsg.error "Book not found"] ∧
    (step demoIdx 2 dbInit (initState "u" 0) (InMsg.selectBook "Atlantis")).2.1 ≠
      initState "u" 0 := by
  refine ⟨rfl, ?_⟩
  decide

/-- C4 amended: selecting an unknown collection emits an error event and leaves
the store, passage sequence, Progress Record binding, Runtime Metrics, current
index and session id unchanged, but overwrites the selected-collection name
with the unknown name. -/
theorem select_unknown_only_selection_changes (idx : List (String × List Verse)) (now : ℚ)
    (db : DB) (st : SessionState) (name : String) (h : lookupBook idx name = none) :
    step idx now db st (InMsg.selectBook name) =
      (db, { st with selectedBook := name }, [OutMsg.error "Book not found"]) := by
  simp only [step]
  dsimp only [handleSelectBook]
  rw [h]

/-- C4 amended witness: the amended behaviour at the concrete unknown name. -/
theorem select_unknown_witness :
    step demoIdx 2 dbInit (initState "u" 0) (InMsg.selectBook "Atlantis") =
      (dbInit, { initState "u" 0 with selectedBook := "Atlantis" },
        [OutMsg.error "Book not found"]) :=
  select_unknown_only_selection_changes demoIdx 2 dbInit (initState "u" 0) "Atlantis" rfl

/-- C7: across every reachable session state WPM is nonnegative, and no inbound
event ever changes it: in particular it is updated only on a correct submission
with positive elapsed time (vacuously, since the dead content handler never
runs), a correct submission at elapsed time 0 leaves it unchanged, and a
mismatched submission never changes it. -/
theorem wpm_nonneg_and_never_updated (idx : List (String × List Verse)) (db : DB)
    (st : SessionState) (h : Reach idx db st) :
    0 ≤ st.runtimeStats.wpm ∧
    ∀ (now : ℚ) (m : InMsg),
      (step idx now db st m).2.1.runtimeStats.wpm = st.runtimeStats.wpm := by
  have hg := reach_good h
  refine ⟨by rw [hg.2.2], fun now m => ?_⟩
  rw [hg.2.2]
  exact (step_preserves idx now db st m hg.2.1 hg.2.2 hg.1).2.2

/-- C7 witness: instantiation at the initial state and a content event. -/
theorem wpm_witness :
    0 ≤ (initState "u" 0).runtimeStats.wpm ∧
    (step demoIdx 1 dbInit (initState "u" 0) (InMsg.content "x")).2.1.runtimeStats.wpm =
      (initState "u" 0).runtimeStats.wpm := by
  have h := wpm_nonneg_and_never_updated demoIdx dbInit (initState "u" 0) (Reach.init "u" 0)
  exact ⟨h.1, h.2 1 (InMsg.content "x")⟩

/-- C8 counterexample: a store row with total_verses = 0 is OMITTED from the
list_all mapping rather than mapped to 0 as the claim states. -/
theorem list_all_omits_zero_total :
    ("u", "X", ({ currentVerse := 0, totalVerses := 0, correctEntries := 0, mistakes := 0 } :
      BookProgress)) ∈ dbC8.bookProgressTable ∧
    ("X", 0) ∉ getAllBookProgress dbC8 "u" := by
  constructor
  · exact List.mem_singleton.mpr rfl
  · have h : getAllBookProgress dbC8 "u" = [] := rfl
    rw [h]
    exact List.not_mem_nil _

/-- C8 amended: the list_all mapping contains exactly the pairs
(collection, current * 100 / total) for the user's records with total > 0;
records with total_count = 0 contribute no entry. -/
theorem getAllBookProgress_mem_iff (db : DB) (uid b : String) (p : Nat) :
    (b, p) ∈ getAllBookProgress db uid ↔
      ∃ bp : BookProgress, (uid, b, bp) ∈ db.bookProgressTable ∧ 0 < bp.totalVerses ∧
        p = bp.currentVerse * 100 / bp.totalVerses := by
  unfold getAllBookProgress
  induction db.bookProgressTable with
  | nil => simp [progressRows]
  | cons e rest ih =>
      rcases e with ⟨u, bn, bp0⟩
      dsimp only [progressRows]
      by_cases hu : u = uid
      · rw [if_pos hu]
        subst hu
        by_cases ht : 0 < bp0.totalVerses
        · rw [if_pos ht]
          constructor
          · intro hm
            rcases List.mem_cons.mp hm with heq | hm2
            · rw [Prod.mk.injEq] at heq
              exact ⟨bp0, by rw [heq.1]; exact List.mem_cons_self _ _, ht, heq.2⟩
            · rcases ih.mp hm2 with ⟨bp, hmem, h1, h2⟩
              exact ⟨bp, List.mem_cons_of_mem _ hmem, h1, h2⟩
          · rintro ⟨bp, hmem, h1, h2⟩
            rcases List.mem_cons.mp hmem with heq | hm2
            · rw [Prod.mk.injEq, Prod.mk.injEq] at heq
              obtain ⟨-, hb2, hbp⟩ := heq
              subst hbp
              exact List.mem_cons.mpr (Or.inl (by rw [Prod.mk.injEq]; exact ⟨hb2, h2⟩))
            · exact List.mem_cons_of_mem _ (ih.mpr ⟨bp, hm2, h1, h2⟩)
        · rw [if_neg ht]
          constructor
          · intro hm
            rcases ih.mp hm with ⟨bp, hmem, h1, h2⟩
            exact ⟨bp, List.mem_cons_of_mem _ hmem, h1, h2⟩
          · rintro ⟨bp, hmem, h1, h2⟩
            rcases List.mem_cons.mp hmem with heq | hm2
            · rw [Prod.mk.injEq, Prod.mk.injEq] at heq
              obtain ⟨-, -, hbp⟩ := heq
              exact absurd (hbp ▸ h1) ht
            · exact ih.mpr ⟨bp, hm2, h1, h2⟩
      · rw [if_neg hu]
        constructor
        · intro hm
          rcases ih.mp hm with ⟨bp, hmem, h1, h2⟩
          exact ⟨bp, List.mem_cons_of_mem _ hmem, h1, h2⟩
        · rintro ⟨bp, hmem, h1, h2⟩
          rcases List.mem_cons.mp hmem with heq | hm2
          · rw [Prod.mk.injEq] at heq
            exact absurd heq.1.symm hu
          · exact ih.mpr ⟨bp, hm2, h1, h2⟩

/-- C8 amended witness: a record with current 1 of total 2 yields entry 50. -/
theorem getAllBookProgress_mem_iff_witness :
    ("Genesis", 50) ∈ getAllBookProgress dbC9 "u" :=
  (getAllBookProgress_mem_iff dbC9 "u" "Genesis" 50).mpr
    ⟨{ currentVerse := 1, totalVerses := 2, correctEntries := 0, mistakes := 0 },
      List.mem_singleton.mpr rfl, by decide, by decide⟩

/-- C9: re-selecting a collection whose persisted record has 0 < current_index
and current_index < total re-points the session to the persisted index, resets
the Runtime Metrics to zeroed counters with a fresh start timestamp, and emits
the passage at that index (1-based position current_index + 1, never position
1). -/
theorem selectBook_resumes_at_persisted_index (idx : List (String × List Verse)) (now : ℚ)
    (db : DB) (st : SessionState) (name : String) (bvs : List Verse) (bp : BookProgress)
    (hb : lookupBook idx name = some bvs)
    (hp : lookupProgress db.bookProgressTable st.uid name = some bp)
    (ht : bp.totalVerses = bvs.length)
    (h0 : 0 < bp.currentVerse)
    (hlt : bp.currentVerse < bp.totalVerses) :
    (step idx now db st (InMsg.selectBook name)).2.1.currentVerseIndex = bp.currentVerse ∧
    (step idx now db st (InMsg.selectBook name)).2.1.runtimeStats =
      { startTime := now, charsTyped := 0, correctChars := 0, wpm := 0, started := false } ∧
    (step idx now db st (InMsg.selectBook name)).2.2 =
      [OutMsg.verse (bvs.getD bp.currentVerse defaultVerse).text
        (bvs.getD bp.currentVerse defaultVerse) (bp.currentVerse + 1) bvs.length
        (some (bp, { startTime := now, charsTyped := 0, correctChars := 0, wpm := 0, started := false }))
        (isFavorite db st.uid (bvs.getD bp.currentVerse defaultVerse))] ∧
    bp.currentVerse + 1 ≠ 1 := by
  have hlt2 : bp.currentVerse < bvs.length := ht ▸ hlt
  simp only [step]
  dsimp only [handleSelectBook]
  rw [hb]
  dsimp only
  rw [getBookProgress_found hp]
  dsimp only
  rw [if_pos hlt2]
  refine ⟨rfl, rfl, rfl, by omega⟩

/-- C9 witness: with a persisted Genesis record at current 1 of 2, selecting
Genesis resumes at 1-based position 2 with zeroed runtime metrics. -/
theorem selectBook_resume_witness :
    (step demoIdx 4 dbC9 (initState "u" 0) (InMsg.selectBook "Genesis")).2.1.currentVerseIndex = 1 ∧
    (step demoIdx 4 dbC9 (initState "u" 0) (InMsg.selectBook "Genesis")).2.1.runtimeStats =
      { startTime := 4, charsTyped := 0, correctChars := 0, wpm := 0, started := false } ∧
    (step demoIdx 4 dbC9 (initState "u" 0) (InMsg.selectBook "Genesis")).2.2 =
      [OutMsg.verse gv2.text gv2 2 2
        (some ({ currentVerse := 1, totalVerses := 2, correctEntries := 0, mistakes := 0 },
          { startTime := 4, charsTyped := 0, correctChars := 0, wpm := 0, started := false }))
        false] ∧
    (1 : Nat) + 1 ≠ 1 :=
  selectBook_resumes_at_persisted_index demoIdx 4 dbC9 (initState "u" 0) "Genesis" [gv1, gv2]
    { currentVerse := 1, totalVerses := 2, correctEntries := 0, mistakes := 0 }
    rfl rfl rfl (by decide) (by decide)

end Elespe
